import Mathlib

/-!
Verification of the Modality-Coverage Metadata Reconciler
(`scripts/task1_make_plots_A.py`).

The Python script is shallowly embedded: scalar cell values become the
inductive type `PyVal`, a table row becomes an association list from column
names to values, and each Python function of the script becomes an
executable Lean function of the same name.  Behaviour of the Python
builtins the script relies on (`str`, `bool`, `int(float(...))`,
`str.strip`, `str.lower`, `in`, `str.replace`) is modelled explicitly.
Numeric parsing (`int(float(s))`) is modelled with exact rational
truncation toward zero; IEEE-754 rounding of the intermediate double is
not modelled, and `inf`/`nan` inputs (on which Python's `int()` raises,
which the script catches and ignores) are modelled as parse failures,
which yields the same fall-through behaviour in `normalize_label`.
String case-folding is modelled on the ASCII range.
-/

/-- A Python scalar value as it can appear in a metadata-table cell:
an actual boolean, an integer, or a piece of text. -/
inductive PyVal where
  | vBool (b : Bool)
  | vInt (n : Int)
  | vStr (s : String)
deriving DecidableEq

/-- Models Python `str(x)` on the cell values of the table. -/
def pyStr : PyVal → String
  | .vBool true => "True"
  | .vBool false => "False"
  | .vInt n => toString n
  | .vStr s => s

/-- Models Python `bool(x)` (truthiness): `False`/`0`/empty string are
falsy, everything else is truthy. -/
def pyBool : PyVal → Bool
  | .vBool b => b
  | .vInt n => !(n == 0)
  | .vStr s => !(s == "")

/-- Characters removed by Python `str.strip()` (ASCII whitespace). -/
def isPyWhitespaceChar (c : Char) : Bool :=
  c == ' ' || c == '\t' || c == '\n' || c == '\r' || c == '\x0B' || c == '\x0C'

/-- Models Python `str.strip()`: drop leading and trailing whitespace. -/
def pyStrip (s : String) : String :=
  ⟨((s.data.dropWhile isPyWhitespaceChar).reverse.dropWhile isPyWhitespaceChar).reverse⟩

/-- Models Python `str.lower()` on one character (ASCII range). -/
def pyLowerChar (c : Char) : Char :=
  if 65 ≤ c.toNat ∧ c.toNat ≤ 90 then Char.ofNat (c.toNat + 32) else c

/-- Models Python `str.lower()` (ASCII range). -/
def pyLower (s : String) : String :=
  ⟨s.data.map pyLowerChar⟩

/-- Does the pattern match at the head of the text?  Helper for the model
of Python's substring test `pat in s`. -/
def matchesAt : List Char → List Char → Bool
  | [], _ => true
  | _ :: _, [] => false
  | p :: ps, c :: cs => p == c && matchesAt ps cs

/-- Does the pattern occur contiguously anywhere in the text? -/
def occursIn (pat : List Char) : List Char → Bool
  | [] => pat.isEmpty
  | c :: cs => matchesAt pat (c :: cs) || occursIn pat cs

/-- Models Python `sub in s` for strings: contiguous substring test. -/
def strContains (s sub : String) : Bool :=
  occursIn sub.data s.data

/-- Numeric value of a list of ASCII digits. -/
def digitsToNat (ds : List Char) : Nat :=
  ds.foldl (fun a c => a * 10 + (c.toNat - 48)) 0

/-- Parse the digits of a float exponent (all characters must be digits,
at least one). -/
def expDigits (ds : List Char) : Option Int :=
  if !ds.isEmpty && ds.all Char.isDigit then some (digitsToNat ds) else none

/-- Parse the optional exponent suffix of a Python float literal; the
whole remaining input must be consumed. -/
def parseExpPart : List Char → Option Int
  | [] => some 0
  | c :: rest =>
    if c == 'e' || c == 'E' then
      match rest with
      | '+' :: ds => expDigits ds
      | '-' :: ds => (expDigits ds).map (fun n => -n)
      | ds => expDigits ds
    else none

/-- Parse the mantissa of a Python float literal: digits with an optional
decimal point, at least one digit overall.  Returns the mantissa as a
natural number, the power-of-ten correction for the fractional digits,
and the unconsumed rest of the input. -/
def parseMantissa (cs : List Char) : Option (Nat × Int × List Char) :=
  let d1 := cs.takeWhile Char.isDigit
  let r1 := cs.dropWhile Char.isDigit
  match r1 with
  | '.' :: r2 =>
    let d2 := r2.takeWhile Char.isDigit
    let r3 := r2.dropWhile Char.isDigit
    if d1.isEmpty && d2.isEmpty then none
    else some (digitsToNat (d1 ++ d2), -(d2.length : Int), r3)
  | _ => if d1.isEmpty then none else some (digitsToNat d1, 0, r1)

/-- Magnitude of `mant * 10^e` truncated toward zero (natural division
truncates, which matches Python `int()` on the magnitude). -/
def pyTruncMag (mant : Nat) (e : Int) : Nat :=
  if 0 ≤ e then mant * 10 ^ e.toNat else mant / 10 ^ (-e).toNat

/-- Models Python `int(float(s))` on an already stripped string, returning
`none` where Python would raise (unparseable input; also `inf`/`nan`,
whose `int()` conversion raises — both cases make `normalize_label` fall
through identically).  The value is computed by exact rational truncation
toward zero. -/
def pyIntOfFloatStr (s : String) : Option Int :=
  let signed : Bool × List Char :=
    match s.data with
    | '+' :: rest => (false, rest)
    | '-' :: rest => (true, rest)
    | cs => (false, cs)
  match parseMantissa signed.2 with
  | none => none
  | some (mant, fexp, rest) =>
    match parseExpPart rest with
    | none => none
    | some e =>
      let mag := pyTruncMag mant (e + fexp)
      some (if signed.1 then -(mag : Int) else (mag : Int))

/-- Embedding of `normalize_label` from `scripts/task1_make_plots_A.py`:
first the numeric path (`int(float(str(x).strip()))` looked up in
`_LABEL_MAP_INT = {0: "malignant", 1: "benign", 2: "no lesion"}`, any
exception ignored, an out-of-table integer falling through), then the
case-folded substring checks, then the literal `"0"/"1"/"2"` fallback,
else the stripped lower-cased string itself. -/
def normalize_label (x : PyVal) : String :=
  let t := pyStrip (pyStr x)
  let numRes : Option String :=
    match pyIntOfFloatStr t with
    | some i =>
      if i = 0 then some "malignant"
      else if i = 1 then some "benign"
      else if i = 2 then some "no lesion"
      else none
    | none => none
  match numRes with
  | some r => r
  | none =>
    let s := pyLower t
    if strContains s "malig" then "malignant"
    else if strContains s "benig" then "benign"
    else if (strContains s "no" && strContains s "lesion") || s == "nolesion" then "no lesion"
    else if s == "0" then "malignant"
    else if s == "1" then "benign"
    else if s == "2" then "no lesion"
    else s

example : normalize_label (.vInt 0) = "malignant" := by decide
example : normalize_label (.vStr "0") = "malignant" := by decide
example : normalize_label (.vStr " 2.0 ") = "no lesion" := by decide
example : normalize_label (.vStr "MALIG") = "malignant" := by decide
example : normalize_label (.vStr "No Lesion") = "no lesion" := by decide
example : normalize_label (.vStr "none") = "none" := by decide
example : normalize_label (.vStr "Unknown_XYZ") = "unknown_xyz" := by decide
example : normalize_label (.vStr "5") = "5" := by decide
example : normalize_label (.vStr "-0.9") = "malignant" := by decide

/-- A table row: an association list from column names to cell values
(a pandas `Series` indexed by the column labels). -/
abbrev Row := List (String × PyVal)

/-- Models `row.get(m, False)`: the value stored under the label, or the
default `False` when the label is absent. -/
def rowGet (r : Row) (k : String) : PyVal :=
  match r.find? (fun p => p.1 == k) with
  | some p => p.2
  | none => .vBool false

/-- Embedding of `row_has_all_modalities`:
`all(bool(row.get(m, False)) for m in modalities)`. -/
def row_has_all_modalities (r : Row) (modalities : List String) : Bool :=
  modalities.all (fun m => pyBool (rowGet r m))

/-- Embedding of `REQUIRED_GROUPS` (the group names contain an en dash). -/
def REQUIRED_GROUPS : List (String × List String) :=
  [("Pre–Post2", ["has_Pre", "has_Post_1", "has_T2"]),
   ("Pre–Post4", ["has_Pre", "has_Post_1", "has_Post_2", "has_Post_3", "has_Post_4"])]

/-- Removes every occurrence of one character; models Python
`s.replace(a, "")` for a single-character pattern. -/
def removeChar (s : String) (a : Char) : String :=
  ⟨s.data.filter (fun c => !(c == a))⟩

/-- Column-name normalization used by the autodetector:
non-breaking spaces (U+00A0) removed after plain spaces. -/
def normColName (c : String) : String :=
  removeChar (removeChar (pyStrip (pyLower c)) ' ') '\u00A0'

/-- The `priority_exact` list of `autodetect_label_col`. -/
def priority_exact : List String :=
  ["lesion", "lesion_class", "lesionclass", "label", "class", "target",
   "gt", "groundtruth", "y", "category"]

/-- The second-pass `keywords` list of `autodetect_label_col`. -/
def detect_keywords : List String :=
  ["lesion", "label", "class", "target", "gt", "truth", "category"]

/-- Embedding of `autodetect_label_col`, over the ordered list of column
names (a Python dict iterates in insertion order, i.e. column order):
first pass, exact match in `priority_exact` order; second pass, substring
match in keyword order then column order; else the empty string. -/
def autodetect_label_col (cols : List String) : String :=
  let lowered := cols.map (fun c => (c, normColName c))
  match priority_exact.findSome?
      (fun k => (lowered.find? (fun p => p.2 == k)).map (fun p => p.1)) with
  | some orig => orig
  | none =>
    match detect_keywords.findSome?
        (fun kw => (lowered.find? (fun p => strContains p.2 kw)).map (fun p => p.1)) with
    | some orig => orig
    | none => ""

/-- Single-quoted rendering of one string, as inside Python `str(list)`.
The quote character is written via its code point to keep the source free
of bare apostrophes. -/
def pyQuoted (c : String) : String :=
  ⟨Char.ofNat 39 :: (c.data ++ [Char.ofNat 39])⟩

/-- Comma-separated body of Python `str` of a list of strings. -/
def pyStrListBody : List String → String
  | [] => ""
  | [c] => pyQuoted c
  | c :: c2 :: rest => pyQuoted c ++ ", " ++ pyStrListBody (c2 :: rest)

/-- Models Python `str(list_of_strings)`, as interpolated into the
`ValueError` message of `main`. -/
def pyStrList (cols : List String) : String :=
  "[" ++ pyStrListBody cols ++ "]"

/-- Embedding of the label-column resolution of `main` (lines 65–70):
strip the `--label-col` argument, autodetect when it is empty, and raise
`ValueError(f"Label column not found. Available columns: ...")` when the
result is empty or not a column of the table. -/
def resolveLabelCol (labelColArg : String) (cols : List String) : Except String String :=
  let lc := pyStrip labelColArg
  let lc := if lc == "" then autodetect_label_col cols else lc
  if lc == "" || !(cols.contains lc) then
    .error ("Label column not found. Available columns: " ++ pyStrList cols)
  else
    .ok lc

example : autodetect_label_col ["UID", "Diagnosis"] = "" := by decide
example : autodetect_label_col ["UID", "Label", "Category"] = "Label" := by decide
example : autodetect_label_col ["UID", "Lesion Class"] = "Lesion Class" := by decide
example : row_has_all_modalities [("has_Pre", .vStr "no")] ["has_Pre"] = true := by decide
example : row_has_all_modalities [("has_Pre", .vBool true)] ["has_Pre", "has_T2"] = false := by decide
example : (resolveLabelCol "" ["UID", "Diagnosis"]).isOk = false := by decide
example : resolveLabelCol " Diagnosis " ["UID", "Diagnosis"] = .ok "Diagnosis" := rfl

/-- The fixed name of the normalized-label column. -/
def lesionNormCol : String := "Lesion_Normalized"

/-- Models the assignment `df["Lesion_Normalized"] = df[label_col].map(normalize_label)`
on one row: any existing `Lesion_Normalized` entry is overwritten.  (When
the column is new, pandas appends it at the end; overwriting an existing
column keeps its position in pandas, while this model moves it to the
end — the set of columns and every value are unchanged.) -/
def augmentRow (labelCol : String) (r : Row) : Row :=
  r.filter (fun p => !(p.1 == lesionNormCol)) ++
    [(lesionNormCol, .vStr (normalize_label (rowGet r labelCol)))]

/-- Member rows of a modality group: the script first adds the
`Lesion_Normalized` column, then computes
`df.apply(lambda r: row_has_all_modalities(r, mods), axis=1)` and keeps
the rows where the mask is true. -/
def groupMembers (df : List Row) (labelCol : String) (mods : List String) : List Row :=
  (df.map (augmentRow labelCol)).filter (fun r => row_has_all_modalities r mods)

/-- The fixed canonical-category list `classes` of `main`. -/
def classes : List String := ["malignant", "benign", "no lesion"]

/-- Embedding of the per-group class-count aggregation of `main`:
`int(sub["Lesion_Normalized"].value_counts().get(c, 0))` for each `c` in
`classes`, i.e. the number of member rows whose normalized label equals
`c`; every canonical category is listed, a missing one with count 0. -/
def class_counts (df : List Row) (labelCol : String) (mods : List String) :
    List (String × Nat) :=
  classes.map (fun c =>
    (c, (groupMembers df labelCol mods).countP
          (fun r => rowGet r lesionNormCol == PyVal.vStr c)))

/-- The identifying columns selected for export besides the `has_` flags. -/
def idCols : List String := ["UID", "Institution", "Split", "Fold", "Path"]

/-- Embedding of the `export_cols` computation of `main`.  The script
computes it over `df.columns` after the `Lesion_Normalized` assignment,
but that column passes neither filter condition, so filtering the input
columns is equivalent; `"Lesion_Normalized"` is then appended. -/
def export_cols (cols : List String) : List String :=
  cols.filter (fun c => c.startsWith "has_" || idCols.contains c) ++ [lesionNormCol]

/-- Restriction of one row to the export columns, in export-column order
(models `df.loc[mask, export_cols]` row-wise). -/
def projectRow (ecols : List String) (r : Row) : Row :=
  ecols.map (fun c => (c, rowGet r c))

/-- The per-group filtered index exported by `main`: member rows only,
restricted to the export columns. -/
def exportTable (df : List Row) (labelCol : String) (cols : List String)
    (mods : List String) : List Row :=
  (groupMembers df labelCol mods).map (projectRow (export_cols cols))

/-- Models minimal CSV quoting of one cell as done by `to_csv`
(QUOTE_MINIMAL): quote when the text holds a comma, a quote character, or
a line break, doubling inner quote characters. -/
def csvQuote (s : String) : String :=
  if s.data.any (fun c => c == ',' || c == '"' || c == '\n' || c == '\r') then
    "\"" ++ ⟨s.data.foldr (fun c acc => if c == '"' then '"' :: '"' :: acc else c :: acc) []⟩ ++ "\""
  else s

/-- One serialized CSV line. -/
def csvLine (cells : List String) : String :=
  String.intercalate "," (cells.map csvQuote) ++ "\n"

/-- Models `DataFrame.to_csv(..., index=False, encoding="utf-8-sig")` on
the projected table: a UTF-8 BOM, the header line, then one line per row
in table order. -/
def serializeCsv (header : List String) (rows : List (List String)) : String :=
  "\uFEFF" ++ String.join ((header :: rows).map csvLine)

/-- Replaces every occurrence of one character by another; models Python
`s.replace(a, b)` for single characters. -/
def replaceChar (s : String) (a b : Char) : String :=
  ⟨s.data.map (fun c => if c == a then b else c)⟩

/-- The file-name sanitization of `main`:
`gname.replace(en dash, "-").replace(em dash, "-").replace(" ", "_")`. -/
def sanitizeGroupName (g : String) : String :=
  replaceChar (replaceChar (replaceChar g '–' '-') '—' '-') ' ' '_'

/-- The deterministic name of one group's exported index file:
`f"task1_index_-sanitized group name-.csv"`. -/
def indexFileName (g : String) : String :=
  "task1_index_" ++ sanitizeGroupName g ++ ".csv"

/-- The complete CSV export of one run of the reconciler: for each group
of `REQUIRED_GROUPS` in order, the file name and the serialized bytes of
the filtered index (cells rendered with `str`, as pandas does for the
booleans and strings stored here). -/
def exportFiles (df : List Row) (labelCol : String) (cols : List String) :
    List (String × String) :=
  REQUIRED_GROUPS.map (fun gp =>
    (indexFileName gp.1,
     serializeCsv (export_cols cols)
       ((exportTable df labelCol cols gp.2).map (fun t => t.map (fun p => pyStr p.2)))))

/-- Defined from the claim, for comparison only: the flag semantics the
spec asserts — true for a boolean `true`, or for text matching one of
`"1"`, `"true"`, `"t"`, `"yes"` case-insensitively, false otherwise. -/
def specFlagTrue : PyVal → Bool
  | .vBool b => b
  | .vInt _ => false
  | .vStr s => pyLower s == "1" || pyLower s == "true" || pyLower s == "t" || pyLower s == "yes"

/-- Defined from the claim, for comparison only: `normalize_label` with
the final literal `"0"/"1"/"2"` fallback branch removed. -/
def normalize_label_nofallback (x : PyVal) : String :=
  let t := pyStrip (pyStr x)
  let numRes : Option String :=
    match pyIntOfFloatStr t with
    | some i =>
      if i = 0 then some "malignant"
      else if i = 1 then some "benign"
      else if i = 2 then some "no lesion"
      else none
    | none => none
  match numRes with
  | some r => r
  | none =>
    let s := pyLower t
    if strContains s "malig" then "malignant"
    else if strContains s "benig" then "benign"
    else if (strContains s "no" && strContains s "lesion") || s == "nolesion" then "no lesion"
    else s

/-- Defined from the amended claim C1: a flag evaluates true when it is
present and truthy under Python `bool`, and false when absent. -/
def flagEvalTrue (r : Row) (m : String) : Bool :=
  match r.find? (fun p => p.1 == m) with
  | some p => pyBool p.2
  | none => false

example : indexFileName "Pre–Post2" = "task1_index_Pre-Post2.csv" := by decide
example : specFlagTrue (.vStr "no") = false := by decide
example : class_counts
    [[("has_Pre", .vBool true), ("Diag", .vStr "Malignant")],
     [("has_Pre", .vBool false), ("Diag", .vStr "benign")]]
    "Diag" ["has_Pre"] = [("malignant", 1), ("benign", 0), ("no lesion", 0)] := by decide

/-! ## Helper lemmas -/

lemma pyBool_rowGet (r : Row) (m : String) :
    pyBool (rowGet r m) = flagEvalTrue r m := by
  unfold rowGet flagEvalTrue
  cases r.find? (fun p => p.1 == m) <;> rfl

/-! ## C1: group membership and flag truthiness -/

/-- C1, counterexample.  The claim says a text flag evaluates true exactly
for a case-insensitive match of "1"/"true"/"t"/"yes"; but the code applies
Python `bool()`, under which any non-empty string — here the value "no" —
is truthy, so the case is a member although the claim says it is not. -/
theorem claim_C1_counterexample :
    row_has_all_modalities [("has_Pre", PyVal.vStr "no")] ["has_Pre"] = true ∧
    specFlagTrue (PyVal.vStr "no") = false := by
  exact ⟨by decide, by decide⟩

/-- C1, amended.  For every case record and modality group, the case is a
member of the group iff every flag in the group's required modality list
evaluates true for that case, where a flag evaluates true exactly when its
value is truthy under Python `bool` (boolean true, non-zero integer, or
non-empty string); a flag absent from the record evaluates false. -/
theorem claim_C1_membership (r : Row) (mods : List String) :
    row_has_all_modalities r mods = true ↔ ∀ m ∈ mods, flagEvalTrue r m = true := by
  unfold row_has_all_modalities
  rw [List.all_eq_true]
  constructor
  · intro h m hm
    rw [← pyBool_rowGet]
    exact h m hm
  · intro h m hm
    rw [pyBool_rowGet]
    exact h m hm

/-- C1, witness: the amended membership equivalence applied to a concrete
single-flag record. -/
theorem claim_C1_witness :
    row_has_all_modalities [("has_Pre", PyVal.vBool true)] ["has_Pre"] = true := by
  exact (claim_C1_membership _ _).mpr (by decide)

/-! ## C2: label column autodetection -/

/-- C2, counterexample.  For the column list ["UID", "Diagnosis"] the
claim says "Diagnosis" is selected; but no exact canonical name and no
keyword of the second pass is a substring of "diagnosis", so the
autodetector finds nothing and returns the empty string. -/
theorem claim_C2_counterexample :
    autodetect_label_col ["UID", "Diagnosis"] = "" ∧
    autodetect_label_col ["UID", "Diagnosis"] ≠ "Diagnosis" := by
  exact ⟨by decide, by decide⟩

/-- C2, amended.  Given columns ["UID", "Diagnosis"], autodetection finds
no match and returns the empty string (which then leads to the
configuration error); given ["UID", "Label", "Category"], it selects
"Label" over "Category" by exact-match priority. -/
theorem claim_C2_autodetect :
    autodetect_label_col ["UID", "Diagnosis"] = "" ∧
    autodetect_label_col ["UID", "Label", "Category"] = "Label" := by
  exact ⟨by decide, by decide⟩

/-! ## C4: normalization is total and falls through to the folded string -/

/-- C4.  Label normalization is a pure total Lean function; every input is
mapped either to one of the three canonical categories or to the stripped,
lower-cased original string, and the unrecognized value "Unknown_XYZ"
yields "unknown_xyz". -/
theorem claim_C4_total (x : PyVal) :
    (normalize_label x = "malignant" ∨ normalize_label x = "benign" ∨
     normalize_label x = "no lesion" ∨
     normalize_label x = pyLower (pyStrip (pyStr x))) ∧
    normalize_label (PyVal.vStr "Unknown_XYZ") = "unknown_xyz" := by
  refine ⟨?_, by decide⟩
  unfold normalize_label
  cases hp : pyIntOfFloatStr (pyStrip (pyStr x)) with
  | none => simp only []; rw [hp]; split_ifs <;> simp
  | some i =>
    simp only []; rw [hp]
    by_cases hi0 : i = 0
    · simp [hi0]
    by_cases hi1 : i = 1
    · simp [hi0, hi1]
    by_cases hi2 : i = 2
    · simp [hi0, hi1, hi2]
    simp only [hi0, hi1, hi2, if_false]
    split_ifs <;> simp_all

/-! ## C5: numeric label codes -/

/-- C5.  Every label value whose numeric parse (integer cast) yields 0, 1
or 2 normalizes to "malignant", "benign", "no lesion" respectively; in
particular each of 0, "0", "Malignant", "MALIG", "malig_type_a"
normalizes to "malignant". -/
theorem claim_C5_numeric_codes (x : PyVal) (i : Int)
    (hp : pyIntOfFloatStr (pyStrip (pyStr x)) = some i)
    (h012 : i = 0 ∨ i = 1 ∨ i = 2) :
    normalize_label x =
      (if i = 0 then "malignant" else if i = 1 then "benign" else "no lesion") ∧
    normalize_label (PyVal.vInt 0) = "malignant" ∧
    normalize_label (PyVal.vStr "0") = "malignant" ∧
    normalize_label (PyVal.vStr "Malignant") = "malignant" ∧
    normalize_label (PyVal.vStr "MALIG") = "malignant" ∧
    normalize_label (PyVal.vStr "malig_type_a") = "malignant" := by
  refine ⟨?_, by decide, by decide, by decide, by decide, by decide⟩
  unfold normalize_label
  simp only []
  rw [hp]
  rcases h012 with h | h | h <;> subst h <;> simp

/-- C5, witness: the numeric-code theorem applied at the concrete input 2,
whose parse is `some 2`. -/
theorem claim_C5_witness :
    pyIntOfFloatStr (pyStrip (pyStr (PyVal.vInt 2))) = some 2 ∧
    normalize_label (PyVal.vInt 2) = "no lesion" := by
  have h := claim_C5_numeric_codes (PyVal.vInt 2) 2 (by decide) (by simp)
  exact ⟨by decide, by simpa using h.1⟩

/-! ## C10: the literal "0"/"1"/"2" fallback branch is dead code -/

lemma pyLowerChar_eq_of_toNat_lt {c d : Char} (hd : d.toNat < 97)
    (h : pyLowerChar c = d) : c = d := by
  unfold pyLowerChar at h
  split at h
  · exfalso
    rename_i hc
    have hv : (c.toNat + 32).isValidChar := Or.inl (by omega)
    have ht : (Char.ofNat (c.toNat + 32)).toNat = c.toNat + 32 := by
      rw [Char.ofNat, dif_pos hv]
      rfl
    rw [h] at ht
    omega
  · exact h

lemma pyLower_eq_single {t : String} {d : Char} (hd : d.toNat < 97)
    (h : pyLower t = ⟨[d]⟩) : t = ⟨[d]⟩ := by
  obtain ⟨l⟩ := t
  have hmap : l.map pyLowerChar = [d] := congrArg String.data h
  have hl : l = [d] := by
    cases l with
    | nil => simp at hmap
    | cons c cs =>
      simp only [List.map_cons, List.cons.injEq] at hmap
      obtain ⟨hc, hcs⟩ := hmap
      have hcs2 : cs = [] := by simpa using hcs
      subst hcs2
      simp [pyLowerChar_eq_of_toNat_lt hd hc]
  exact congrArg String.mk hl

/-- C10.  The final fallback branch of `normalize_label` that maps the
literal strings "0"/"1"/"2" is unreachable: any input whose stripped text
lowers to "0", "1" or "2" is already consumed by the numeric-parse stage,
so the function with that branch removed is extensionally equal to the
original. -/
theorem claim_C10_fallback_dead (x : PyVal) :
    normalize_label_nofallback x = normalize_label x := by
  have key : ∀ (d : Char) (k : Int), d.toNat < 97 → pyIntOfFloatStr ⟨[d]⟩ = some k →
      pyLower (pyStrip (pyStr x)) = ⟨[d]⟩ →
      pyIntOfFloatStr (pyStrip (pyStr x)) = some k := by
    intro d k hd hpd hlow
    rw [pyLower_eq_single hd hlow]
    exact hpd
  unfold normalize_label normalize_label_nofallback
  simp only []
  cases hp : pyIntOfFloatStr (pyStrip (pyStr x)) with
  | some i =>
    by_cases hi0 : i = 0
    · simp [hi0]
    by_cases hi1 : i = 1
    · simp [hi1]
    by_cases hi2 : i = 2
    · simp [hi2]
    simp only [hi0, hi1, hi2, if_false]
    split_ifs with h1 h2 h3 h4 h5 h6 <;> try rfl
    · exfalso
      have h4x : pyLower (pyStrip (pyStr x)) = ⟨['0']⟩ := by simpa using h4
      have := key '0' 0 (by decide) (by decide) h4x
      rw [hp] at this
      exact hi0 (by simpa using this)
    · exfalso
      have h5x : pyLower (pyStrip (pyStr x)) = ⟨['1']⟩ := by simpa using h5
      have := key '1' 1 (by decide) (by decide) h5x
      rw [hp] at this
      exact hi1 (by simpa using this)
    · exfalso
      have h6x : pyLower (pyStrip (pyStr x)) = ⟨['2']⟩ := by simpa using h6
      have := key '2' 2 (by decide) (by decide) h6x
      rw [hp] at this
      exact hi2 (by simpa using this)
  | none =>
    split_ifs with h1 h2 h3 h4 h5 h6 <;> try rfl
    · exfalso
      have h4x : pyLower (pyStrip (pyStr x)) = ⟨['0']⟩ := by simpa using h4
      have := key '0' 0 (by decide) (by decide) h4x
      rw [hp] at this
      exact Option.noConfusion this
    · exfalso
      have h5x : pyLower (pyStrip (pyStr x)) = ⟨['1']⟩ := by simpa using h5
      have := key '1' 1 (by decide) (by decide) h5x
      rw [hp] at this
      exact Option.noConfusion this
    · exfalso
      have h6x : pyLower (pyStrip (pyStr x)) = ⟨['2']⟩ := by simpa using h6
      have := key '2' 2 (by decide) (by decide) h6x
      rw [hp] at this
      exact Option.noConfusion this

/-! ## C3: the "no lesion" normalization -/

/-- C3, counterexample.  The claim lists "none" among the no-lesion
aliases, but the code recognizes only the literal "nolesion" (besides the
no-and-lesion substring rule): input "none" stays "none".  Its "whenever"
direction also fails on values that additionally contain "malig", which
the earlier branch claims first. -/
theorem claim_C3_counterexample :
    normalize_label (PyVal.vStr "none") = "none" ∧
    normalize_label (PyVal.vStr "none") ≠ "no lesion" ∧
    normalize_label (PyVal.vStr "no malignant lesion") = "malignant" ∧
    normalize_label (PyVal.vStr "no malignant lesion") ≠ "no lesion" := by
  exact ⟨by decide, by decide, by decide, by decide⟩

/-- C3, amended.  For every label value that does not parse as a number in
-0, 1, 2- and whose case-folded form contains neither "malig" nor
"benig", normalization returns "no lesion" whenever the case-folded value
contains both "no" and "lesion" or equals the alias "nolesion"; in
particular each of 2, "2", "No Lesion", "nolesion", "NO_LESION" and
"no_lesion" normalizes to "no lesion", while "none" stays "none". -/
theorem claim_C3_no_lesion (x : PyVal)
    (hnum : ∀ i : Int, pyIntOfFloatStr (pyStrip (pyStr x)) = some i → i ≠ 0 ∧ i ≠ 1 ∧ i ≠ 2)
    (hm : strContains (pyLower (pyStrip (pyStr x))) "malig" = false)
    (hb : strContains (pyLower (pyStrip (pyStr x))) "benig" = false)
    (hcond : (strContains (pyLower (pyStrip (pyStr x))) "no" = true ∧
              strContains (pyLower (pyStrip (pyStr x))) "lesion" = true) ∨
             pyLower (pyStrip (pyStr x)) = "nolesion") :
    normalize_label x = "no lesion" ∧
    normalize_label (PyVal.vInt 2) = "no lesion" ∧
    normalize_label (PyVal.vStr "2") = "no lesion" ∧
    normalize_label (PyVal.vStr "No Lesion") = "no lesion" ∧
    normalize_label (PyVal.vStr "nolesion") = "no lesion" ∧
    normalize_label (PyVal.vStr "NO_LESION") = "no lesion" ∧
    normalize_label (PyVal.vStr "no_lesion") = "no lesion" ∧
    normalize_label (PyVal.vStr "none") = "none" := by
  refine ⟨?_, by decide, by decide, by decide, by decide, by decide, by decide, by decide⟩
  have hc3 : (strContains (pyLower (pyStrip (pyStr x))) "no" &&
       strContains (pyLower (pyStrip (pyStr x))) "lesion" ||
       pyLower (pyStrip (pyStr x)) == "nolesion") = true := by
    rcases hcond with ⟨h1, h2⟩ | h1
    · simp [h1, h2]
    · simp [h1]
  unfold normalize_label
  simp only []
  cases hp : pyIntOfFloatStr (pyStrip (pyStr x)) with
  | none => simp [hm, hb, hc3]
  | some i =>
    obtain ⟨h0, h1, h2⟩ := hnum i hp
    simp [h0, h1, h2, hm, hb, hc3]

/-- C3, witness: the amended theorem applied to the concrete value
"No Lesion", whose numeric parse fails. -/
theorem claim_C3_witness :
    normalize_label (PyVal.vStr "No Lesion") = "no lesion" := by
  have h := claim_C3_no_lesion (PyVal.vStr "No Lesion")
    (by intro i hi
        rw [(by decide : pyIntOfFloatStr (pyStrip (pyStr (PyVal.vStr "No Lesion"))) = none)] at hi
        exact Option.noConfusion hi)
    (by decide) (by decide) (Or.inl ⟨by decide, by decide⟩)
  exact h.1

/-! ## C6: failing fast on an unresolvable label column -/

lemma matchesAt_self_append (pat rest : List Char) :
    matchesAt pat (pat ++ rest) = true := by
  induction pat with
  | nil => rfl
  | cons p ps ih => simp [matchesAt, ih]

lemma occursIn_of_append (pat pre suf : List Char) :
    occursIn pat (pre ++ (pat ++ suf)) = true := by
  induction pre with
  | nil =>
    cases hp : pat with
    | nil => cases suf <;> simp [occursIn, matchesAt]
    | cons p ps =>
      simp only [List.nil_append]
      rw [List.cons_append]
      simp [occursIn, ← List.cons_append, ← hp, matchesAt_self_append]
  | cons c cs ih =>
    simp [occursIn, ih]

lemma strContains_of_data_eq {s sub : String} (pre suf : List Char)
    (h : s.data = pre ++ (sub.data ++ suf)) : strContains s sub = true := by
  unfold strContains
  rw [h]
  exact occursIn_of_append _ _ _

lemma mem_pyStrListBody {c : String} (cols : List String) (h : c ∈ cols) :
    ∃ pre suf, (pyStrListBody cols).data = pre ++ (c.data ++ suf) := by
  induction cols with
  | nil => cases h
  | cons a rest ih =>
    cases rest with
    | nil =>
      have : c = a := by simpa using h
      subst this
      exact ⟨[Char.ofNat 39], [Char.ofNat 39], by simp [pyStrListBody, pyQuoted]⟩
    | cons b rest2 =>
      rcases List.mem_cons.mp h with hc | hc
      · subst hc
        refine ⟨[Char.ofNat 39],
          [Char.ofNat 39] ++ (", ".data ++ (pyStrListBody (b :: rest2)).data), ?_⟩
        simp [pyStrListBody, pyQuoted, String.data_append]
      · obtain ⟨pre, suf, hps⟩ := ih hc
        refine ⟨(pyQuoted a).data ++ (", ".data ++ pre), suf, ?_⟩
        simp [pyStrListBody, String.data_append, hps]

lemma mem_pyStrList {c : String} (cols : List String) (h : c ∈ cols) :
    ∃ pre suf, (pyStrList cols).data = pre ++ (c.data ++ suf) := by
  obtain ⟨pre, suf, hps⟩ := mem_pyStrListBody cols h
  exact ⟨"[".data ++ pre, suf ++ "]".data, by simp [pyStrList, String.data_append, hps]⟩

/-- C6.  When the stripped explicit label-column argument is empty and
autodetection returns nothing, or the stripped argument names no column
of the table, the label-column resolution raises the `ValueError` (no
silent default), and the error message contains every available column
name. -/
theorem claim_C6_config_error (labelColArg : String) (cols : List String)
    (h : (pyStrip labelColArg = "" ∧ autodetect_label_col cols = "") ∨
         (pyStrip labelColArg ≠ "" ∧ pyStrip labelColArg ∉ cols)) :
    ∃ msg, resolveLabelCol labelColArg cols = .error msg ∧
      ∀ c ∈ cols, strContains msg c = true := by
  refine ⟨"Label column not found. Available columns: " ++ pyStrList cols, ?_, ?_⟩
  · unfold resolveLabelCol
    rcases h with ⟨h1, h2⟩ | ⟨h1, h2⟩
    · simp [h1, h2]
    · have hne : (pyStrip labelColArg == "") = false := by simpa using h1
      simp [hne, h2]
  · intro c hc
    obtain ⟨pre, suf, hps⟩ := mem_pyStrList cols hc
    exact strContains_of_data_eq
      ("Label column not found. Available columns: ".data ++ pre) suf
      (by simp [String.data_append, hps])

/-- C6, witness: resolution of the concrete table ["UID", "Diagnosis"]
with no explicit argument fails with a message naming both columns. -/
theorem claim_C6_witness :
    ∃ msg, resolveLabelCol "" ["UID", "Diagnosis"] = .error msg ∧
      ∀ c ∈ ["UID", "Diagnosis"], strContains msg c = true := by
  exact claim_C6_config_error "" ["UID", "Diagnosis"] (Or.inl ⟨by decide, by decide⟩)

/-! ## C7: per-group canonical label counts -/

lemma rowGet_augmentRow (labelCol : String) (r : Row) :
    rowGet (augmentRow labelCol r) lesionNormCol =
      .vStr (normalize_label (rowGet r labelCol)) := by
  unfold augmentRow rowGet
  rw [List.find?_append]
  have h1 : (r.filter (fun p => !(p.1 == lesionNormCol))).find?
      (fun p => p.1 == lesionNormCol) = none := by
    rw [List.find?_eq_none]
    intro x hx
    simpa using (List.mem_filter.mp hx).2
  rw [h1]
  rfl

lemma counts_partition (l : List Row) :
    l.countP (fun r => rowGet r lesionNormCol == PyVal.vStr "malignant") +
    l.countP (fun r => rowGet r lesionNormCol == PyVal.vStr "benign") +
    l.countP (fun r => rowGet r lesionNormCol == PyVal.vStr "no lesion") +
    l.countP (fun r => decide (∀ c ∈ classes, rowGet r lesionNormCol ≠ PyVal.vStr c)) =
    l.length := by
  induction l with
  | nil => rfl
  | cons r l ih =>
    simp only [List.countP_cons, List.length_cons]
    by_cases h0 : rowGet r lesionNormCol = PyVal.vStr "malignant" <;>
    by_cases h1 : rowGet r lesionNormCol = PyVal.vStr "benign" <;>
    by_cases h2 : rowGet r lesionNormCol = PyVal.vStr "no lesion" <;>
      simp_all [classes] <;> omega

/-- C7.  For every group the aggregation reports exactly the three
canonical categories in order (a zero count is still present), each count
is the number of the group's member cases whose normalized label equals
that category, and member cases with a non-canonical normalized label
contribute to none of the three counts: the three counts plus the
non-canonical members add up to the total member count. -/
theorem claim_C7_class_counts (df : List Row) (labelCol : String) (mods : List String) :
    (class_counts df labelCol mods).map Prod.fst = classes ∧
    (∀ c cnt, (c, cnt) ∈ class_counts df labelCol mods →
      cnt = df.countP (fun r =>
        row_has_all_modalities (augmentRow labelCol r) mods &&
        (normalize_label (rowGet r labelCol) == c))) ∧
    ((class_counts df labelCol mods).map Prod.snd).sum +
      (groupMembers df labelCol mods).countP
        (fun r => decide (∀ c ∈ classes, rowGet r lesionNormCol ≠ PyVal.vStr c)) =
      (groupMembers df labelCol mods).length := by
  refine ⟨?_, ?_, ?_⟩
  · rfl
  · intro c cnt hmem
    simp only [class_counts, List.mem_map, Prod.mk.injEq] at hmem
    obtain ⟨c', hc', rfl, rfl⟩ := hmem
    unfold groupMembers
    rw [List.countP_filter, List.countP_map]
    have hbeq : ∀ a b : String, (PyVal.vStr a == PyVal.vStr b) = (a == b) := by
      intro a b
      by_cases h : a = b <;> simp [h]
    have hfun : ∀ r : Row,
        ((rowGet (augmentRow labelCol r) lesionNormCol == PyVal.vStr c') &&
          row_has_all_modalities (augmentRow labelCol r) mods) =
        (row_has_all_modalities (augmentRow labelCol r) mods &&
          (normalize_label (rowGet r labelCol) == c')) := by
      intro r
      rw [rowGet_augmentRow, Bool.and_comm, hbeq]
    exact congrArg (fun p => List.countP p df) (funext fun r => hfun r)
  · have hpart := counts_partition (groupMembers df labelCol mods)
    have hsnd : (class_counts df labelCol mods).map Prod.snd =
        [(groupMembers df labelCol mods).countP
           (fun r => rowGet r lesionNormCol == PyVal.vStr "malignant"),
         (groupMembers df labelCol mods).countP
           (fun r => rowGet r lesionNormCol == PyVal.vStr "benign"),
         (groupMembers df labelCol mods).countP
           (fun r => rowGet r lesionNormCol == PyVal.vStr "no lesion")] := by
      simp [class_counts, classes]
    rw [hsnd]
    simp only [List.sum_cons, List.sum_nil]
    omega

/-! ## C8: the exported index -/

/-- C8.  Every group's exported index holds exactly the group's member
cases — each member row appears (projected), and every exported row stems
from a member row — restricted to the fixed column set: each exported row
lists exactly the export columns, and a name is an export column iff it
is an input column that carries a `has_` modality flag or is one of the
identifying columns UID/Institution/Split/Fold/Path present in the input,
or it is the normalized-label column. -/
theorem claim_C8_export (df : List Row) (labelCol : String) (cols : List String)
    (mods : List String) :
    (∀ r ∈ df.map (augmentRow labelCol), row_has_all_modalities r mods = true →
       projectRow (export_cols cols) r ∈ exportTable df labelCol cols mods) ∧
    (∀ t ∈ exportTable df labelCol cols mods,
       ∃ r, r ∈ df.map (augmentRow labelCol) ∧ row_has_all_modalities r mods = true ∧
         t = projectRow (export_cols cols) r) ∧
    (∀ t ∈ exportTable df labelCol cols mods, t.map Prod.fst = export_cols cols) ∧
    (∀ c, c ∈ export_cols cols ↔
       ((c ∈ cols ∧ (c.startsWith "has_" = true ∨ c ∈ idCols)) ∨ c = lesionNormCol)) := by
  refine ⟨?_, ?_, ?_, ?_⟩
  · intro r hr hm
    unfold exportTable groupMembers
    exact List.mem_map_of_mem _ (List.mem_filter.mpr ⟨hr, hm⟩)
  · intro t ht
    unfold exportTable groupMembers at ht
    obtain ⟨r, hrf, rfl⟩ := List.mem_map.mp ht
    obtain ⟨hr, hm⟩ := List.mem_filter.mp hrf
    exact ⟨r, hr, hm, rfl⟩
  · intro t ht
    unfold exportTable at ht
    obtain ⟨r, _, rfl⟩ := List.mem_map.mp ht
    unfold projectRow
    rw [List.map_map]
    exact List.map_id _
  · intro c
    unfold export_cols
    rw [List.mem_append, List.mem_filter]
    simp [List.contains]

/-- C8, witness: the export equivalence applied to a concrete one-row
table whose single case is a member. -/
theorem claim_C8_witness :
    projectRow (export_cols ["UID", "has_Pre"])
        (augmentRow "UID" [("UID", PyVal.vStr "a"), ("has_Pre", PyVal.vBool true)]) ∈
      exportTable [[("UID", PyVal.vStr "a"), ("has_Pre", PyVal.vBool true)]]
        "UID" ["UID", "has_Pre"] ["has_Pre"] := by
  exact (claim_C8_export _ "UID" _ _).1 _ (by decide) (by decide)

/-! ## C9: deterministic, timestamp-free exports -/

/-- C9.  The reconciler's CSV export is a pure function of the parsed
input table: two runs on identical inputs produce identical bytes under
identical file names, and the default file names are fixed constants
derived only from the group names (en/em dashes to hyphens, spaces to
underscores) — no timestamp or other varying part. -/
theorem claim_C9_deterministic (df1 df2 : List Row) (labelCol : String) (cols : List String)
    (h : df1 = df2) :
    exportFiles df1 labelCol cols = exportFiles df2 labelCol cols ∧
    (exportFiles df1 labelCol cols).map Prod.fst =
      ["task1_index_Pre-Post2.csv", "task1_index_Pre-Post4.csv"] := by
  subst h
  refine ⟨rfl, ?_⟩
  rw [exportFiles, List.map_map]
  rfl

/-- C9, witness: the determinism theorem applied to two (equal) copies of
a concrete table. -/
theorem claim_C9_witness :
    (exportFiles [] "Label" ["UID"]).map Prod.fst =
      ["task1_index_Pre-Post2.csv", "task1_index_Pre-Post4.csv"] := by
  exact (claim_C9_deterministic [] [] "Label" ["UID"] rfl).2

/-- C7, witness: the aggregation theorem applied to a concrete one-row
table (its second conjunct consumes the membership hypothesis of the
count characterization at the category "malignant"). -/
theorem claim_C7_witness :
    (class_counts [[("has_Pre", PyVal.vBool true), ("Diag", PyVal.vStr "Malignant")]]
        "Diag" ["has_Pre"]).map Prod.fst = classes := by
  exact (claim_C7_class_counts _ "Diag" _).1

/-- C4, witness: the totality theorem instantiated at the concrete
unrecognized value. -/
theorem claim_C4_witness :
    normalize_label (PyVal.vStr "Unknown_XYZ") = "unknown_xyz" := by
  exact (claim_C4_total (PyVal.vStr "Unknown_XYZ")).2

/-- C10, witness: the two variants agree on a concrete input. -/
theorem claim_C10_witness :
    normalize_label_nofallback (PyVal.vStr " 2.7 ") = normalize_label (PyVal.vStr " 2.7 ") := by
  exact claim_C10_fallback_dead (PyVal.vStr " 2.7 ")
